import Mathlib

/-!
# Verification of the Mergington High School API (`src/app.py`)

Shallow embedding of the CRUD/signup subsystem of the FastAPI application:
the in-memory activity registry, the persisted Event store with its
comma-joined attendee encoding, and the News store.

Conventions of the embedding:
* Python `HTTPException(status_code, detail)` raised by a handler is modelled
  by returning `Except.error`; every handler returns a pair of its response
  and the post-state of the store it touches, the raising paths returning the
  store unchanged (a `raise` aborts before any `session.commit`).
* Python `dict` state (`activities`) is modelled as an association list with
  unique keys (Python dicts preserve insertion order).
* The SQLite `event` and `news` tables are modelled as lists of rows; the
  primary-key lookup `session.get(Event, event_id)` is `List.find?` on the
  `id` field and a committed mutation replaces the row with that id.
* Python `str.split(",")` / `",".join` are modelled character-wise on
  `List Char` (`splitCharList` / `joinCommaList`), matching Python exactly,
  including `"".split(",") == [""]` and `"a,".split(",") == ["a", ""]`.
* `datetime` values are opaque to all claims; they are modelled as integers.
  A Python `datetime` object is always truthy, so `if not item.published_at`
  is true exactly when the field is `None`.
-/

namespace Mergington

/-- Model of FastAPI `HTTPException(status_code, detail)`. -/
structure HTTPException where
  status_code : Nat
  detail : String
deriving DecidableEq

/-- An activity record of the in-memory `activities` dict in `app.py`. -/
structure Activity where
  description : String
  schedule : String
  max_participants : Nat
  participants : List String
deriving DecidableEq

/-- The seeded in-memory activity database (`activities` in `app.py`),
as an association list in the dict's insertion order. -/
def activities : List (String × Activity) :=
  [("Chess Club",
    { description := "Learn strategies and compete in chess tournaments",
      schedule := "Fridays, 3:30 PM - 5:00 PM",
      max_participants := 12,
      participants := ["michael@mergington.edu", "daniel@mergington.edu"] }),
   ("Programming Class",
    { description := "Learn programming fundamentals and build software projects",
      schedule := "Tuesdays and Thursdays, 3:30 PM - 4:30 PM",
      max_participants := 20,
      participants := ["emma@mergington.edu", "sophia@mergington.edu"] }),
   ("Gym Class",
    { description := "Physical education and sports activities",
      schedule := "Mondays, Wednesdays, Fridays, 2:00 PM - 3:00 PM",
      max_participants := 30,
      participants := ["john@mergington.edu", "olivia@mergington.edu"] }),
   ("Soccer Team",
    { description := "Join the school soccer team and compete in matches",
      schedule := "Tuesdays and Thursdays, 4:00 PM - 5:30 PM",
      max_participants := 22,
      participants := ["liam@mergington.edu", "noah@mergington.edu"] }),
   ("Basketball Team",
    { description := "Practice and play basketball with the school team",
      schedule := "Wednesdays and Fridays, 3:30 PM - 5:00 PM",
      max_participants := 15,
      participants := ["ava@mergington.edu", "mia@mergington.edu"] }),
   ("Art Club",
    { description := "Explore your creativity through painting and drawing",
      schedule := "Thursdays, 3:30 PM - 5:00 PM",
      max_participants := 15,
      participants := ["amelia@mergington.edu", "harper@mergington.edu"] }),
   ("Drama Club",
    { description := "Act, direct, and produce plays and performances",
      schedule := "Mondays and Wednesdays, 4:00 PM - 5:30 PM",
      max_participants := 20,
      participants := ["ella@mergington.edu", "scarlett@mergington.edu"] }),
   ("Math Club",
    { description := "Solve challenging problems and participate in math competitions",
      schedule := "Tuesdays, 3:30 PM - 4:30 PM",
      max_participants := 10,
      participants := ["james@mergington.edu", "benjamin@mergington.edu"] }),
   ("Debate Team",
    { description := "Develop public speaking and argumentation skills",
      schedule := "Fridays, 4:00 PM - 5:30 PM",
      max_participants := 12,
      participants := ["charlotte@mergington.edu", "henry@mergington.edu"] })]

/-- Python `activity_name in activities` / `activities[activity_name]`:
lookup in the registry by activity name. -/
def lookupActivity (acts : List (String × Activity)) (name : String) : Option Activity :=
  (acts.find? (fun p => decide (p.1 = name))).map Prod.snd

/-- In-place mutation of the named activity's record (Python mutates
`activities[activity_name]` through an alias). -/
def setActivity (acts : List (String × Activity)) (name : String) (a : Activity) :
    List (String × Activity) :=
  acts.map (fun p => if p.1 = name then (p.1, a) else p)

/-- `signup_for_activity` (`POST /activities/\x7bactivity_name\x7d/signup`),
`app.py` lines 296-315. -/
def signup_for_activity (acts : List (String × Activity)) (activity_name email : String) :
    Except HTTPException String × List (String × Activity) :=
  match lookupActivity acts activity_name with
  | none => (Except.error ⟨404, "Activity not found"⟩, acts)
  | some activity =>
    if email ∈ activity.participants then
      (Except.error ⟨400, "Student is already signed up"⟩, acts)
    else
      (Except.ok ("Signed up " ++ email ++ " for " ++ activity_name),
       setActivity acts activity_name
         { activity with participants := activity.participants ++ [email] })

/-- `unregister_from_activity` (`DELETE /activities/\x7bactivity_name\x7d/unregister`),
`app.py` lines 318-337.  Python `list.remove` removes the first occurrence,
which is `List.erase`. -/
def unregister_from_activity (acts : List (String × Activity)) (activity_name email : String) :
    Except HTTPException String × List (String × Activity) :=
  match lookupActivity acts activity_name with
  | none => (Except.error ⟨404, "Activity not found"⟩, acts)
  | some activity =>
    if email ∉ activity.participants then
      (Except.error ⟨400, "Student is not signed up for this activity"⟩, acts)
    else
      (Except.ok ("Unregistered " ++ email ++ " from " ++ activity_name),
       setActivity acts activity_name
         { activity with participants := activity.participants.erase email })

/-- A row of the `event` table (`class Event(SQLModel, table=True)`,
`app.py` lines 91-102).  `datetime` columns are opaque to every claim and
modelled as integers. -/
structure Event where
  id : Option Int
  title : String
  description : Option String
  location : Option String
  start_datetime : Option Int
  end_datetime : Option Int
  capacity : Option Int
  attendees : Option String
  organizer : Option String
  tags : Option String
deriving DecidableEq

/-- `session.get(Event, event_id)`: primary-key lookup in the `event` table. -/
def getEvent (db : List Event) (event_id : Int) : Option Event :=
  db.find? (fun e => decide (e.id = some event_id))

/-- A committed mutation of the row with primary key `event_id`
(`session.add(event); session.commit()` after mutating the object returned
by `session.get`). -/
def replaceEvent (db : List Event) (event_id : Int) (event' : Event) : List Event :=
  db.map (fun e => if e.id = some event_id then event' else e)

/-- Python `s.split(",")` character-wise: split a character list at every
comma.  `splitCharList [] = [[]]` matches `"".split(",") == [""]` and a
trailing comma yields a trailing empty group, as in Python. -/
def splitCharList : List Char → List (List Char)
  | [] => [[]]
  | c :: cs =>
    if c = ',' then [] :: splitCharList cs
    else
      match splitCharList cs with
      | [] => [[c]]
      | g :: gs => (c :: g) :: gs

/-- Python `",".join(groups)` character-wise. -/
def joinCommaList : List (List Char) → List Char
  | [] => []
  | [g] => g
  | g :: gs => g ++ ',' :: joinCommaList gs

/-- `_parse_attendees` (`app.py` lines 183-186): `[]` for `None` or the
empty string, otherwise split on commas and discard empty segments. -/
def _parse_attendees (s : Option String) : List String :=
  match s with
  | none => []
  | some s =>
    if s = "" then []
    else ((splitCharList s.toList).map (fun g => String.mk g)).filter
      (fun e => decide (e ≠ ""))

/-- `_join_attendees` (`app.py` lines 189-190): `",".join(lst)`. -/
def _join_attendees (lst : List String) : String :=
  String.mk (joinCommaList (lst.map String.toList))

/-- The Python truthiness test guarding the capacity rejection in
`signup_event`: `event.capacity and len(attendees) >= event.capacity`.
`None` and `0` are falsy; any other integer is truthy. -/
def capacityFull (capacity : Option Int) (n : Nat) : Bool :=
  match capacity with
  | none => false
  | some c => decide (c ≠ 0) && decide (c ≤ (n : Int))

/-- `signup_event` (`POST /events/\x7bevent_id\x7d/signup`),
`app.py` lines 193-209. -/
def signup_event (db : List Event) (event_id : Int) (email : String) :
    Except HTTPException String × List Event :=
  match getEvent db event_id with
  | none => (Except.error ⟨404, "Event not found"⟩, db)
  | some event =>
    let attendees := _parse_attendees event.attendees
    if email ∈ attendees then
      (Except.error ⟨400, "Already signed up"⟩, db)
    else if capacityFull event.capacity attendees.length then
      (Except.error ⟨400, "Event is full"⟩, db)
    else
      (Except.ok ("Signed up " ++ email),
       replaceEvent db event_id
         { event with attendees := some (_join_attendees (attendees ++ [email])) })

/-- `unregister_event` (`POST /events/\x7bevent_id\x7d/unregister`),
`app.py` lines 212-226.  Python `list.remove` removes the first occurrence,
which is `List.erase`. -/
def unregister_event (db : List Event) (event_id : Int) (email : String) :
    Except HTTPException String × List Event :=
  match getEvent db event_id with
  | none => (Except.error ⟨404, "Event not found"⟩, db)
  | some event =>
    let attendees := _parse_attendees event.attendees
    if email ∉ attendees then
      (Except.error ⟨400, "Not signed up"⟩, db)
    else
      (Except.ok ("Unregistered " ++ email),
       replaceEvent db event_id
         { event with attendees := some (_join_attendees (attendees.erase email)) })

/-- `checkin_event` (`POST /events/\x7bevent_id\x7d/checkin`),
`app.py` lines 229-239.  The handler only reads; no path writes the store. -/
def checkin_event (db : List Event) (event_id : Int) (email : String) :
    Except HTTPException String × List Event :=
  match getEvent db event_id with
  | none => (Except.error ⟨404, "Event not found"⟩, db)
  | some event =>
    let attendees := _parse_attendees event.attendees
    if email ∉ attendees then
      (Except.error ⟨400, "Student not registered"⟩, db)
    else
      (Except.ok ("Checked in " ++ email), db)

/-- A `PUT /events/\x7bevent_id\x7d` payload together with which fields the
caller explicitly supplied: `payload.dict(exclude_unset=True)` iterates
exactly the supplied fields, so each field is `none` (absent from the
payload) or `some v` (supplied, to be written as `v`). -/
structure EventUpdate where
  id : Option (Option Int)
  title : Option String
  description : Option (Option String)
  location : Option (Option String)
  start_datetime : Option (Option Int)
  end_datetime : Option (Option Int)
  capacity : Option (Option Int)
  attendees : Option (Option String)
  organizer : Option (Option String)
  tags : Option (Option String)
deriving DecidableEq

/-- The `setattr` loop of `update_event`: overwrite exactly the supplied
fields of the stored row. -/
def applyUpdate (event : Event) (payload : EventUpdate) : Event :=
  { id := payload.id.getD event.id,
    title := payload.title.getD event.title,
    description := payload.description.getD event.description,
    location := payload.location.getD event.location,
    start_datetime := payload.start_datetime.getD event.start_datetime,
    end_datetime := payload.end_datetime.getD event.end_datetime,
    capacity := payload.capacity.getD event.capacity,
    attendees := payload.attendees.getD event.attendees,
    organizer := payload.organizer.getD event.organizer,
    tags := payload.tags.getD event.tags }

/-- `update_event` (`PUT /events/\x7bevent_id\x7d`), `app.py` lines 158-169. -/
def update_event (db : List Event) (event_id : Int) (payload : EventUpdate) :
    Except HTTPException Event × List Event :=
  match getEvent db event_id with
  | none => (Except.error ⟨404, "Event not found"⟩, db)
  | some event =>
    (Except.ok (applyUpdate event payload),
     replaceEvent db event_id (applyUpdate event payload))

/-- A row of the `news` table (`class News(SQLModel, table=True)`,
`app.py` lines 105-111), `published_at` modelled as an integer timestamp. -/
structure News where
  id : Option Int
  title : String
  body : Option String
  author : Option String
  published_at : Option Int
  tags : Option String
deriving DecidableEq

/-- `create_news` (`POST /news`), `app.py` lines 250-258.  `now` stands for
`datetime.utcnow()` (the clock is an external effect, passed explicitly).
A Python `datetime` is always truthy, so `if not item.published_at` holds
exactly when the field is `None`. -/
def create_news (db : List News) (item : News) (now : Int) : News × List News :=
  let item' :=
    if item.published_at = none then { item with published_at := some now } else item
  (item', db ++ [item'])

/-- Convenience constructor for concrete `News` rows in witnesses. -/
def mkNews (title : String) (published_at : Option Int) : News :=
  { id := none, title := title, body := none, author := none,
    published_at := published_at, tags := none }

/-- Convenience constructor for concrete `Event` rows in witnesses. -/
def mkEvent (id : Option Int) (capacity : Option Int) (attendees : Option String) : Event :=
  { id := id, title := "t", description := none, location := none,
    start_datetime := none, end_datetime := none, capacity := capacity,
    attendees := attendees, organizer := none, tags := none }

/-! ## Helper lemmas on the comma encoding -/

/-- `splitCharList` never returns the empty list of groups. -/
theorem splitCharList_ne_nil (cs : List Char) : splitCharList cs ≠ [] := by
  cases cs with
  | nil => simp [splitCharList]
  | cons c cs =>
    by_cases hc : c = ','
    · simp [splitCharList, hc]
    · simp only [splitCharList, if_neg hc]
      rcases h : splitCharList cs with _ | ⟨g, gs⟩ <;> simp

/-- Unfolding equation for `splitCharList` on a cons, with the inner match
expressed through `headI`/`tail`. -/
theorem splitCharList_cons (c : Char) (cs : List Char) :
    splitCharList (c :: cs) =
      if c = ',' then [] :: splitCharList cs
      else (c :: (splitCharList cs).headI) :: (splitCharList cs).tail := by
  by_cases hc : c = ','
  · simp [splitCharList, hc]
  · rcases h : splitCharList cs with _ | ⟨g, gs⟩
    · simp [splitCharList, hc, h]
      rfl
    · simp [splitCharList, hc, h]

/-- A comma-free character list is split into the single group it is. -/
theorem splitCharList_comma_free (g : List Char) (h : ',' ∉ g) :
    splitCharList g = [g] := by
  induction g with
  | nil => rfl
  | cons c cs ih =>
    have hc : c ≠ ',' := fun hc => h (hc ▸ List.mem_cons_self c cs)
    have hcs : ',' ∉ cs := fun hm => h (List.mem_cons_of_mem c hm)
    simp [splitCharList, hc, ih hcs]

/-- Splitting after a comma-free first group peels that group off. -/
theorem splitCharList_append (g rest : List Char) (h : ',' ∉ g) :
    splitCharList (g ++ ',' :: rest) = g :: splitCharList rest := by
  induction g with
  | nil => simp [splitCharList]
  | cons c cs ih =>
    have hc : c ≠ ',' := fun hc => h (hc ▸ List.mem_cons_self c cs)
    have hcs : ',' ∉ cs := fun hm => h (List.mem_cons_of_mem c hm)
    simp only [List.cons_append]
    rw [splitCharList_cons, if_neg hc, ih hcs]
    simp

/-- Splitting undoes joining for a nonempty list of comma-free groups. -/
theorem splitCharList_joinCommaList (gs : List (List Char)) (hne : gs ≠ [])
    (h : ∀ g ∈ gs, ',' ∉ g) :
    splitCharList (joinCommaList gs) = gs := by
  induction gs with
  | nil => exact absurd rfl hne
  | cons g gs ih =>
    cases gs with
    | nil => simp [joinCommaList, splitCharList_comma_free g (h g (by simp))]
    | cons g2 gs2 =>
      have hj : joinCommaList (g :: g2 :: gs2) = g ++ ',' :: joinCommaList (g2 :: gs2) := rfl
      rw [hj, splitCharList_append _ _ (h g (by simp))]
      rw [ih (by simp) (fun x hx => h x (List.mem_cons_of_mem g hx))]

/-- Every group produced by `splitCharList` is comma-free. -/
theorem comma_not_mem_splitCharList (cs g : List Char) (h : g ∈ splitCharList cs) :
    ',' ∉ g := by
  induction cs generalizing g with
  | nil =>
    simp [splitCharList] at h
    simp [h]
  | cons c cs ih =>
    rw [splitCharList_cons] at h
    by_cases hc : c = ','
    · rw [if_pos hc] at h
      rcases List.mem_cons.mp h with h | h
      · simp [h]
      · exact ih g h
    · rw [if_neg hc] at h
      rcases List.mem_cons.mp h with h | h
      · subst h
        intro hm
        rcases List.mem_cons.mp hm with hm | hm
        · exact hc hm.symm
        · have hh : (splitCharList cs).headI ∈ splitCharList cs := by
            rcases hs : splitCharList cs with _ | ⟨g0, gs⟩
            · exact absurd hs (splitCharList_ne_nil cs)
            · simp
          exact ih _ hh hm
      · exact ih g (List.mem_of_mem_tail h)

/-- `joinCommaList` only produces the empty list from no groups or one
empty group. -/
theorem joinCommaList_eq_nil (gs : List (List Char)) (h : joinCommaList gs = []) :
    gs = [] ∨ gs = [[]] := by
  match gs with
  | [] => exact Or.inl rfl
  | [g] => exact Or.inr (by simpa [joinCommaList] using h)
  | g :: g2 :: gs2 =>
    exfalso
    have hj : joinCommaList (g :: g2 :: gs2) = g ++ ',' :: joinCommaList (g2 :: gs2) := rfl
    rw [hj] at h
    simp at h

theorem mk_toList (s : String) : String.mk s.toList = s := rfl

theorem mk_data (s : String) : String.mk s.data = s := rfl

theorem toList_mk (g : List Char) : (String.mk g).toList = g := rfl

theorem toList_append (a b : String) : (a ++ b).toList = a.toList ++ b.toList := by
  cases a; cases b; rfl

/-- Parsing the join of comma-free emails keeps exactly the nonempty ones. -/
theorem parse_join (l : List String) (hl : ∀ x ∈ l, ',' ∉ x.toList) :
    _parse_attendees (some (_join_attendees l)) =
      l.filter (fun e => decide (e ≠ "")) := by
  rcases l with _ | ⟨x, l'⟩
  · rfl
  · by_cases hj : _join_attendees (x :: l') = ""
    · have hdata : joinCommaList ((x :: l').map String.toList) = [] := by
        have h1 := congrArg String.toList hj
        rw [_join_attendees, toList_mk] at h1
        simpa using h1
      rcases joinCommaList_eq_nil _ hdata with h | h
      · simp at h
      · simp only [List.map_cons, List.cons.injEq] at h
        obtain ⟨hx, hl'⟩ := h
        have hxe : x = "" := by
          have h2 := congrArg String.mk hx
          rwa [mk_toList] at h2
        have hl'e : l' = [] := by simpa using hl'
        subst hl'e
        rw [hj, hxe]
        rfl
    · simp only [_parse_attendees, if_neg hj]
      have hdata : (_join_attendees (x :: l')).toList =
          joinCommaList ((x :: l').map String.toList) := rfl
      rw [hdata, splitCharList_joinCommaList _ (by simp) ?comma_free]
      case comma_free =>
        intro g hg
        rcases List.mem_map.mp hg with ⟨y, hy, hgy⟩
        rw [← hgy]
        exact hl y hy
      have hmapid : ∀ (l : List String),
          List.map ((fun g => String.mk g) ∘ String.toList) l = l := by
        intro l
        induction l with
        | nil => rfl
        | cons a l ih =>
          simp only [List.map_cons, ih]
          rfl
      rw [List.map_map, hmapid]

/-- Every decoded attendee is nonempty and comma-free. -/
theorem parse_attendees_mem (s : Option String) (x : String)
    (h : x ∈ _parse_attendees s) : x ≠ "" ∧ ',' ∉ x.toList := by
  rcases s with _ | s
  · simp [_parse_attendees] at h
  · by_cases hs : s = ""
    · simp [_parse_attendees, hs] at h
    · simp only [_parse_attendees, if_neg hs] at h
      rcases List.mem_filter.mp h with ⟨hmem, hne⟩
      rcases List.mem_map.mp hmem with ⟨g, hg, hgx⟩
      refine ⟨by simpa using hne, ?_⟩
      rw [← hgx, toList_mk]
      exact comma_not_mem_splitCharList s.toList g hg

/-- The empty string is never a decoded attendee. -/
theorem empty_not_mem_parse (s : Option String) : "" ∉ _parse_attendees s :=
  fun h => (parse_attendees_mem s "" h).1 rfl

/-- Re-decoding after appending a comma-free email to the decoded list and
re-encoding: the new email survives exactly when it is nonempty. -/
theorem parse_after_signup (s : Option String) (e : String) (he : ',' ∉ e.toList) :
    _parse_attendees (some (_join_attendees (_parse_attendees s ++ [e]))) =
      _parse_attendees s ++ (if e = "" then [] else [e]) := by
  rw [parse_join]
  · rw [List.filter_append]
    have h1 : (_parse_attendees s).filter (fun e => decide (e ≠ "")) =
        _parse_attendees s := by
      apply List.filter_eq_self.mpr
      intro x hx
      simpa using (parse_attendees_mem s x hx).1
    rw [h1]
    by_cases hee : e = "" <;> simp [hee]
  · intro x hx
    rcases List.mem_append.mp hx with hx | hx
    · exact (parse_attendees_mem s x hx).2
    · simp only [List.mem_singleton] at hx
      subst hx
      exact he

/-- Re-decoding after removing an email from the decoded list and
re-encoding gives exactly the erased list. -/
theorem parse_after_unregister (s : Option String) (e : String) :
    _parse_attendees (some (_join_attendees ((_parse_attendees s).erase e))) =
      (_parse_attendees s).erase e := by
  rw [parse_join]
  · apply List.filter_eq_self.mpr
    intro x hx
    have hxs : x ∈ _parse_attendees s := List.erase_subset _ _ hx
    simpa using (parse_attendees_mem s x hxs).1
  · intro x hx
    have hxs : x ∈ _parse_attendees s := List.erase_subset _ _ hx
    exact (parse_attendees_mem s x hxs).2

/-! ## Helper lemmas on the stores -/

/-- A successful primary-key lookup returns a stored row with that key. -/
theorem getEvent_mem (db : List Event) (event_id : Int) (ev : Event)
    (h : getEvent db event_id = some ev) : ev ∈ db ∧ ev.id = some event_id := by
  unfold getEvent at h
  refine ⟨List.mem_of_find?_eq_some h, ?_⟩
  have hp := List.find?_some h
  simpa using hp

/-- Looking up a row after committing a replacement of the same key. -/
theorem getEvent_replaceEvent (db : List Event) (event_id : Int) (ev ev' : Event)
    (hid : ev'.id = some event_id) (h : getEvent db event_id = some ev) :
    getEvent (replaceEvent db event_id ev') event_id = some ev' := by
  induction db with
  | nil => simp [getEvent] at h
  | cons e es ih =>
    by_cases he : e.id = some event_id
    · simp [getEvent, replaceEvent, List.find?_cons, he, hid]
    · have h' : getEvent es event_id = some ev := by
        simpa [getEvent, List.find?_cons, he] using h
      have h2 := ih h'
      simpa [getEvent, replaceEvent, List.find?_cons, he] using h2

/-- Rows of a replaced store are the replacement or original rows. -/
theorem mem_replaceEvent (db : List Event) (event_id : Int) (ev' e : Event)
    (h : e ∈ replaceEvent db event_id ev') : e = ev' ∨ e ∈ db := by
  unfold replaceEvent at h
  rcases List.mem_map.mp h with ⟨x, hx, hfx⟩
  by_cases hc : x.id = some event_id
  · rw [if_pos hc] at hfx
    exact Or.inl hfx.symm
  · rw [if_neg hc] at hfx
    exact Or.inr (hfx ▸ hx)

/-- A successful registry lookup comes from a stored entry with that name. -/
theorem lookupActivity_mem (acts : List (String × Activity)) (name : String)
    (a : Activity) (h : lookupActivity acts name = some a) :
    ∃ p ∈ acts, p.1 = name ∧ p.2 = a := by
  unfold lookupActivity at h
  rcases hf : acts.find? (fun p => decide (p.1 = name)) with _ | p
  · rw [hf] at h
    simp at h
  · rw [hf] at h
    refine ⟨p, List.mem_of_find?_eq_some hf, ?_, by simpa using h⟩
    have hp := List.find?_some hf
    simpa using hp

/-- Looking up an activity after mutating its record in place. -/
theorem lookupActivity_setActivity (acts : List (String × Activity)) (name : String)
    (a a' : Activity) (h : lookupActivity acts name = some a) :
    lookupActivity (setActivity acts name a') name = some a' := by
  induction acts with
  | nil => simp [lookupActivity] at h
  | cons p ps ih =>
    by_cases hp : p.1 = name
    · simp [lookupActivity, setActivity, List.find?_cons, hp]
    · have h' : lookupActivity ps name = some a := by
        simpa [lookupActivity, List.find?_cons, hp] using h
      have h2 := ih h'
      simpa [lookupActivity, setActivity, List.find?_cons, hp] using h2

/-- Entries of a mutated registry are the mutated entry or original ones. -/
theorem mem_setActivity (acts : List (String × Activity)) (name : String)
    (a : Activity) (p : String × Activity) (h : p ∈ setActivity acts name a) :
    (∃ q ∈ acts, p = (q.1, a)) ∨ p ∈ acts := by
  unfold setActivity at h
  rcases List.mem_map.mp h with ⟨x, hx, hfx⟩
  by_cases hc : x.1 = name
  · rw [if_pos hc] at hfx
    exact Or.inl ⟨x, hx, hfx.symm⟩
  · rw [if_neg hc] at hfx
    exact Or.inr (hfx ▸ hx)

/-- Inversion of a successful event signup: the email was not yet decoded,
capacity did not block, and the committed row re-encodes the appended list. -/
theorem signup_event_ok (db : List Event) (event_id : Int) (email : String)
    (ev : Event) (hget : getEvent db event_id = some ev) (m : String)
    (db' : List Event) (hs : signup_event db event_id email = (Except.ok m, db')) :
    email ∉ _parse_attendees ev.attendees ∧
    capacityFull ev.capacity (_parse_attendees ev.attendees).length = false ∧
    m = "Signed up " ++ email ∧
    db' = replaceEvent db event_id
      { ev with attendees := some (_join_attendees (_parse_attendees ev.attendees ++ [email])) } := by
  unfold signup_event at hs
  rw [hget] at hs
  by_cases hmem : email ∈ _parse_attendees ev.attendees
  · simp [hmem] at hs
  · by_cases hcap : capacityFull ev.capacity (_parse_attendees ev.attendees).length = true
    · simp [hmem, hcap] at hs
    · simp only [hmem, if_false, if_neg hmem, Bool.not_eq_true] at hcap
      simp only [if_neg hmem, hcap, if_false, Bool.false_eq_true, Prod.mk.injEq,
        Except.ok.injEq] at hs
      exact ⟨hmem, hcap, hs.1.symm, hs.2.symm⟩

/-- Appending a fresh element keeps a list duplicate-free. -/
theorem nodup_append_one {α : Type} (l : List α) (a : α) (hn : l.Nodup) (h : a ∉ l) :
    (l ++ [a]).Nodup := by
  refine hn.append (List.nodup_singleton a) ?_
  intro x hx hxa
  rw [List.mem_singleton] at hxa
  subst hxa
  exact h hx

/-- `checkin_event` never writes the store, on any path. -/
theorem checkin_event_snd (db : List Event) (event_id : Int) (email : String) :
    (checkin_event db event_id email).2 = db := by
  unfold checkin_event
  rcases getEvent db event_id with _ | ev
  · rfl
  · by_cases hm : email ∈ _parse_attendees ev.attendees <;> simp [hm]

/-! ## Claims -/

/-- C1: for a stored event whose `capacity` is set and non-zero and whose
decoded attendee list already has at least `capacity` members, signing up an
email that is not yet an attendee fails with 400 "Event is full"
(CapacityExceeded) and the store is unchanged; with `capacity` unset or `0`
the signup is never rejected for capacity (it succeeds). -/
theorem signup_event_capacity_spec (db : List Event) (event_id : Int) (email : String)
    (ev : Event) (hget : getEvent db event_id = some ev)
    (hmem : email ∉ _parse_attendees ev.attendees) :
    (∀ c : Int, ev.capacity = some c → c ≠ 0 →
        c ≤ ((_parse_attendees ev.attendees).length : Int) →
        signup_event db event_id email = (Except.error ⟨400, "Event is full"⟩, db)) ∧
    (ev.capacity = none ∨ ev.capacity = some 0 →
        (signup_event db event_id email).1 = Except.ok ("Signed up " ++ email)) := by
  constructor
  · intro c hc hc0 hlen
    have hcap : capacityFull ev.capacity (_parse_attendees ev.attendees).length = true := by
      rw [hc]
      simp [capacityFull, hc0, hlen]
    unfold signup_event
    rw [hget]
    simp [hmem, hcap]
  · intro hc
    have hcap : capacityFull ev.capacity (_parse_attendees ev.attendees).length = false := by
      rcases hc with hc | hc <;> simp [capacityFull, hc]
    unfold signup_event
    rw [hget]
    simp [hmem, hcap]

/-- C1 witness: a one-seat event with one attendee rejects a second email
with "Event is full" leaving the store unchanged, and an uncapped event
accepts it. -/
theorem signup_event_capacity_spec_witness :
    signup_event [mkEvent (some 1) (some 1) (some "a")] 1 "b" =
      (Except.error ⟨400, "Event is full"⟩, [mkEvent (some 1) (some 1) (some "a")]) ∧
    (signup_event [mkEvent (some 2) none (some "a")] 2 "b").1 = Except.ok "Signed up b" := by
  constructor
  · exact (signup_event_capacity_spec [mkEvent (some 1) (some 1) (some "a")] 1 "b"
      (mkEvent (some 1) (some 1) (some "a")) rfl (by decide)).1 1 rfl (by decide) (by decide)
  · exact (signup_event_capacity_spec [mkEvent (some 2) none (some "a")] 2 "b"
      (mkEvent (some 2) none (some "a")) rfl (by decide)).2 (Or.inl rfl)

/-- C3: activity signup for a present activity and a fresh email always
succeeds — there is no capacity check, regardless of `max_participants` —
the email is appended and afterwards appears exactly once, and the
confirmation message contains both the email and the activity name. -/
theorem signup_for_activity_success (acts : List (String × Activity)) (name email : String)
    (a : Activity) (hlook : lookupActivity acts name = some a)
    (hmem : email ∉ a.participants) :
    signup_for_activity acts name email =
      (Except.ok ("Signed up " ++ email ++ " for " ++ name),
       setActivity acts name { a with participants := a.participants ++ [email] }) ∧
    lookupActivity (signup_for_activity acts name email).2 name =
      some { a with participants := a.participants ++ [email] } ∧
    (a.participants ++ [email]).count email = 1 ∧
    (∃ l r, ("Signed up " ++ email ++ " for " ++ name).toList = l ++ email.toList ++ r) ∧
    (∃ l r, ("Signed up " ++ email ++ " for " ++ name).toList = l ++ name.toList ++ r) := by
  have hres : signup_for_activity acts name email =
      (Except.ok ("Signed up " ++ email ++ " for " ++ name),
       setActivity acts name { a with participants := a.participants ++ [email] }) := by
    unfold signup_for_activity
    rw [hlook]
    simp [hmem]
  refine ⟨hres, ?_, ?_, ?_, ?_⟩
  · rw [hres]
    exact lookupActivity_setActivity acts name a _ hlook
  · rw [List.count_append, List.count_eq_zero.mpr hmem]
    simp
  · exact ⟨"Signed up ".toList, " for ".toList ++ name.toList, by
      simp [toList_append, List.append_assoc]⟩
  · exact ⟨"Signed up ".toList ++ email.toList ++ " for ".toList, [], by
      simp [toList_append, List.append_assoc]⟩

/-- Concrete one-activity registry (already at `max_participants = 1`) for
the C3 witness. -/
def tinyActivity : Activity :=
  { description := "d", schedule := "s", max_participants := 1,
    participants := ["a@x"] }

/-- C3 witness: signup succeeds on a full activity (1 of 1 seats taken),
showing the absence of a capacity check, and appends the email. -/
theorem signup_for_activity_success_witness :
    signup_for_activity [("c", tinyActivity)] "c" "b@x" =
      (Except.ok "Signed up b@x for c",
       setActivity [("c", tinyActivity)] "c"
         { tinyActivity with participants := ["a@x", "b@x"] }) ∧
    (tinyActivity.participants ++ ["b@x"]).count "b@x" = 1 := by
  have h := signup_for_activity_success [("c", tinyActivity)] "c" "b@x" tinyActivity
    rfl (by decide)
  exact ⟨h.1, h.2.2.1⟩

/-- C4: signing an email up for an activity it already belongs to fails with
400 "Student is already signed up" and leaves the registry unchanged;
concretely, signing up test@mergington.edu for the seeded "Chess Club"
returns the message "Signed up test@mergington.edu for Chess Club" and
repeating the call fails with that 400. -/
theorem signup_for_activity_duplicate (acts : List (String × Activity)) (name email : String)
    (a : Activity) (hlook : lookupActivity acts name = some a)
    (hmem : email ∈ a.participants) :
    signup_for_activity acts name email =
      (Except.error ⟨400, "Student is already signed up"⟩, acts) ∧
    (signup_for_activity activities "Chess Club" "test@mergington.edu").1 =
      Except.ok "Signed up test@mergington.edu for Chess Club" ∧
    signup_for_activity (signup_for_activity activities "Chess Club" "test@mergington.edu").2
        "Chess Club" "test@mergington.edu" =
      (Except.error ⟨400, "Student is already signed up"⟩,
       (signup_for_activity activities "Chess Club" "test@mergington.edu").2) := by
  refine ⟨?_, rfl, rfl⟩
  unfold signup_for_activity
  rw [hlook]
  simp [hmem]

/-- C4 witness: the duplicate-signup rejection at a concrete registry. -/
theorem signup_for_activity_duplicate_witness :
    signup_for_activity [("c", tinyActivity)] "c" "a@x" =
      (Except.error ⟨400, "Student is already signed up"⟩, [("c", tinyActivity)]) :=
  (signup_for_activity_duplicate [("c", tinyActivity)] "c" "a@x" tinyActivity
    rfl (by decide)).1

/-- C5: partial event update fails with 404 "Event not found" when the id is
absent; otherwise it overwrites exactly the fields explicitly present in the
payload, leaves every omitted field unchanged, persists the row and returns
the updated record. -/
theorem update_event_spec (db : List Event) (event_id : Int) (payload : EventUpdate) :
    (getEvent db event_id = none →
      update_event db event_id payload = (Except.error ⟨404, "Event not found"⟩, db)) ∧
    (∀ ev, getEvent db event_id = some ev →
      update_event db event_id payload =
        (Except.ok (applyUpdate ev payload),
         replaceEvent db event_id (applyUpdate ev payload)) ∧
      (payload.id = none → (applyUpdate ev payload).id = ev.id) ∧
      (∀ v, payload.id = some v → (applyUpdate ev payload).id = v) ∧
      (payload.title = none → (applyUpdate ev payload).title = ev.title) ∧
      (∀ v, payload.title = some v → (applyUpdate ev payload).title = v) ∧
      (payload.description = none → (applyUpdate ev payload).description = ev.description) ∧
      (∀ v, payload.description = some v → (applyUpdate ev payload).description = v) ∧
      (payload.location = none → (applyUpdate ev payload).location = ev.location) ∧
      (∀ v, payload.location = some v → (applyUpdate ev payload).location = v) ∧
      (payload.start_datetime = none →
        (applyUpdate ev payload).start_datetime = ev.start_datetime) ∧
      (∀ v, payload.start_datetime = some v → (applyUpdate ev payload).start_datetime = v) ∧
      (payload.end_datetime = none → (applyUpdate ev payload).end_datetime = ev.end_datetime) ∧
      (∀ v, payload.end_datetime = some v → (applyUpdate ev payload).end_datetime = v) ∧
      (payload.capacity = none → (applyUpdate ev payload).capacity = ev.capacity) ∧
      (∀ v, payload.capacity = some v → (applyUpdate ev payload).capacity = v) ∧
      (payload.attendees = none → (applyUpdate ev payload).attendees = ev.attendees) ∧
      (∀ v, payload.attendees = some v → (applyUpdate ev payload).attendees = v) ∧
      (payload.organizer = none → (applyUpdate ev payload).organizer = ev.organizer) ∧
      (∀ v, payload.organizer = some v → (applyUpdate ev payload).organizer = v) ∧
      (payload.tags = none → (applyUpdate ev payload).tags = ev.tags) ∧
      (∀ v, payload.tags = some v → (applyUpdate ev payload).tags = v)) := by
  constructor
  · intro h
    unfold update_event
    rw [h]
  · intro ev hget
    have hres : update_event db event_id payload =
        (Except.ok (applyUpdate ev payload),
         replaceEvent db event_id (applyUpdate ev payload)) := by
      unfold update_event
      rw [hget]
    refine ⟨hres, ?_, ?_, ?_, ?_, ?_, ?_, ?_, ?_, ?_, ?_, ?_, ?_, ?_, ?_, ?_, ?_, ?_, ?_,
      ?_, ?_⟩ <;>
      first
        | (intro h; simp [applyUpdate, h])
        | (intro v hv; simp [applyUpdate, hv])

/-- A payload supplying only `title` for the C5 witness. -/
def titleOnly : EventUpdate :=
  { id := none, title := some "new", description := none, location := none,
    start_datetime := none, end_datetime := none, capacity := none,
    attendees := none, organizer := none, tags := none }

/-- C5 witness: updating only `title` rewrites `title` and leaves
`description`, `capacity` and `attendees` at their prior values. -/
theorem update_event_spec_witness :
    update_event [mkEvent (some 1) (some 5) (some "a")] 1 titleOnly =
      (Except.ok (applyUpdate (mkEvent (some 1) (some 5) (some "a")) titleOnly),
       replaceEvent [mkEvent (some 1) (some 5) (some "a")] 1
         (applyUpdate (mkEvent (some 1) (some 5) (some "a")) titleOnly)) ∧
    (applyUpdate (mkEvent (some 1) (some 5) (some "a")) titleOnly).title = "new" ∧
    (applyUpdate (mkEvent (some 1) (some 5) (some "a")) titleOnly).description =
      (mkEvent (some 1) (some 5) (some "a")).description ∧
    (applyUpdate (mkEvent (some 1) (some 5) (some "a")) titleOnly).capacity =
      (mkEvent (some 1) (some 5) (some "a")).capacity ∧
    (applyUpdate (mkEvent (some 1) (some 5) (some "a")) titleOnly).attendees =
      (mkEvent (some 1) (some 5) (some "a")).attendees := by
  have h := (update_event_spec [mkEvent (some 1) (some 5) (some "a")] 1 titleOnly).2
    (mkEvent (some 1) (some 5) (some "a")) rfl
  exact ⟨h.1, h.2.2.2.2.1 "new" rfl, h.2.2.2.2.2.1 rfl, h.2.2.2.2.2.2.2.2.2.2.2.2.2.1 rfl,
    h.2.2.2.2.2.2.2.2.2.2.2.2.2.2.2.1 rfl⟩

/-- C6: checkin is pure validation — 404 when the event is absent, 400
"Student not registered" when the email is not a decoded attendee, a
confirmation otherwise, and in every case the store is unchanged. -/
theorem checkin_event_pure (db : List Event) (event_id : Int) (email : String) :
    (checkin_event db event_id email).2 = db ∧
    (getEvent db event_id = none →
      (checkin_event db event_id email).1 = Except.error ⟨404, "Event not found"⟩) ∧
    (∀ ev, getEvent db event_id = some ev → email ∉ _parse_attendees ev.attendees →
      (checkin_event db event_id email).1 = Except.error ⟨400, "Student not registered"⟩) ∧
    (∀ ev, getEvent db event_id = some ev → email ∈ _parse_attendees ev.attendees →
      (checkin_event db event_id email).1 = Except.ok ("Checked in " ++ email)) := by
  refine ⟨checkin_event_snd db event_id email, ?_, ?_, ?_⟩
  · intro h
    unfold checkin_event
    rw [h]
  · intro ev h hm
    unfold checkin_event
    rw [h]
    simp [hm]
  · intro ev h hm
    unfold checkin_event
    rw [h]
    simp [hm]

/-- C6 witness: both failure modes and the success mode at concrete stores,
each leaving the store untouched. -/
theorem checkin_event_pure_witness :
    (checkin_event [] 1 "x").2 = [] ∧
    (checkin_event [] 1 "x").1 = Except.error ⟨404, "Event not found"⟩ ∧
    (checkin_event [mkEvent (some 1) none (some "y")] 1 "x").1 =
      Except.error ⟨400, "Student not registered"⟩ ∧
    (checkin_event [mkEvent (some 1) none (some "x")] 1 "x").1 =
      Except.ok "Checked in x" := by
  refine ⟨(checkin_event_pure [] 1 "x").1, (checkin_event_pure [] 1 "x").2.1 rfl, ?_, ?_⟩
  · exact (checkin_event_pure [mkEvent (some 1) none (some "y")] 1 "x").2.2.1
      (mkEvent (some 1) none (some "y")) rfl (by decide)
  · exact (checkin_event_pure [mkEvent (some 1) none (some "x")] 1 "x").2.2.2
      (mkEvent (some 1) none (some "x")) rfl (by decide)

/-- C7: activity unregister fails with 404 "Activity not found" for an
unknown name, fails with 400 "Student is not signed up for this activity"
for a non-member leaving the registry unchanged, and otherwise removes the
email and returns a confirmation message. -/
theorem unregister_from_activity_spec (acts : List (String × Activity)) (name email : String) :
    (lookupActivity acts name = none →
      unregister_from_activity acts name email =
        (Except.error ⟨404, "Activity not found"⟩, acts)) ∧
    (∀ a, lookupActivity acts name = some a → email ∉ a.participants →
      unregister_from_activity acts name email =
        (Except.error ⟨400, "Student is not signed up for this activity"⟩, acts)) ∧
    (∀ a, lookupActivity acts name = some a → email ∈ a.participants →
      unregister_from_activity acts name email =
        (Except.ok ("Unregistered " ++ email ++ " from " ++ name),
         setActivity acts name { a with participants := a.participants.erase email })) := by
  refine ⟨?_, ?_, ?_⟩
  · intro h
    unfold unregister_from_activity
    rw [h]
  · intro a h hm
    unfold unregister_from_activity
    rw [h]
    simp [hm]
  · intro a h hm
    unfold unregister_from_activity
    rw [h]
    simp [hm]

/-- C7 witness: unknown name, non-member, and successful removal at a
concrete registry. -/
theorem unregister_from_activity_spec_witness :
    unregister_from_activity [("c", tinyActivity)] "nope" "a@x" =
      (Except.error ⟨404, "Activity not found"⟩, [("c", tinyActivity)]) ∧
    unregister_from_activity [("c", tinyActivity)] "c" "b@x" =
      (Except.error ⟨400, "Student is not signed up for this activity"⟩,
       [("c", tinyActivity)]) ∧
    unregister_from_activity [("c", tinyActivity)] "c" "a@x" =
      (Except.ok "Unregistered a@x from c",
       setActivity [("c", tinyActivity)] "c"
         { tinyActivity with participants := [] }) := by
  refine ⟨(unregister_from_activity_spec [("c", tinyActivity)] "nope" "a@x").1 rfl, ?_, ?_⟩
  · exact (unregister_from_activity_spec [("c", tinyActivity)] "c" "b@x").2.1
      tinyActivity rfl (by decide)
  · exact (unregister_from_activity_spec [("c", tinyActivity)] "c" "a@x").2.2
      tinyActivity rfl (by decide)

/-- C8: news creation defaults `published_at` to the current UTC timestamp
when it is not supplied (so the stored and returned record is non-null
there), stores a supplied value as given, and appends the returned record
to the store. -/
theorem create_news_published_at (db : List News) (item : News) (now : Int) :
    (item.published_at = none → (create_news db item now).1.published_at = some now) ∧
    (∀ t, item.published_at = some t → (create_news db item now).1.published_at = some t) ∧
    (create_news db item now).1.published_at ≠ none ∧
    (create_news db item now).2 = db ++ [(create_news db item now).1] := by
  refine ⟨?_, ?_, ?_, rfl⟩
  · intro h
    simp [create_news, h]
  · intro t h
    simp [create_news, h]
  · rcases h : item.published_at with _ | t <;> simp [create_news, h]

/-- C8 witness: omitted `published_at` becomes the clock value, a supplied
one is kept. -/
theorem create_news_published_at_witness :
    (create_news [] (mkNews "n" none) 7).1.published_at = some 7 ∧
    (create_news [] (mkNews "m" (some 3)) 7).1.published_at = some 3 :=
  ⟨(create_news_published_at [] (mkNews "n" none) 7).1 rfl,
   (create_news_published_at [] (mkNews "m" (some 3)) 7).2.1 3 rfl⟩

/-- C10: for an existing event with remaining capacity, signing up the empty
email succeeds with the confirmation "Signed up ", yet the decoded attendee
list of the committed row does not contain the empty string and equals the
previous decoded list (so the non-empty attendees are unchanged), and
repeating the empty-email signup succeeds again instead of failing with
Conflict. -/
theorem signup_event_empty_email (db : List Event) (event_id : Int) (ev : Event)
    (hget : getEvent db event_id = some ev)
    (hcap : capacityFull ev.capacity (_parse_attendees ev.attendees).length = false) :
    ∃ ev', signup_event db event_id "" =
        (Except.ok "Signed up ", replaceEvent db event_id ev') ∧
      getEvent (replaceEvent db event_id ev') event_id = some ev' ∧
      "" ∉ _parse_attendees ev'.attendees ∧
      _parse_attendees ev'.attendees = _parse_attendees ev.attendees ∧
      (signup_event (replaceEvent db event_id ev') event_id "").1 =
        Except.ok "Signed up " := by
  refine ⟨{ ev with attendees := some (_join_attendees (_parse_attendees ev.attendees ++ [""])) },
    ?_, ?_, ?_, ?_, ?_⟩
  case refine_2 =>
    exact getEvent_replaceEvent db event_id ev _ (getEvent_mem db event_id ev hget).2 hget
  case refine_3 =>
    exact empty_not_mem_parse _
  case refine_4 =>
    show _parse_attendees (some (_join_attendees (_parse_attendees ev.attendees ++ [""]))) =
      _parse_attendees ev.attendees
    rw [parse_after_signup ev.attendees "" (by simp)]
    simp
  case refine_1 =>
    unfold signup_event
    rw [hget]
    simp [empty_not_mem_parse ev.attendees, hcap]
  case refine_5 =>
    have hget' := getEvent_replaceEvent db event_id ev
      { ev with attendees := some (_join_attendees (_parse_attendees ev.attendees ++ [""])) }
      (getEvent_mem db event_id ev hget).2 hget
    unfold signup_event
    rw [hget']
    have hp : _parse_attendees
        (some (_join_attendees (_parse_attendees ev.attendees ++ [""]))) =
        _parse_attendees ev.attendees := by
      rw [parse_after_signup ev.attendees "" (by simp)]
      simp
    simp only [hp]
    simp [empty_not_mem_parse ev.attendees, hcap]

/-- C10 witness: an event with one attendee and no capacity limit accepts the
empty email twice, with the decoded list staying `["x"]`. -/
theorem signup_event_empty_email_witness :
    ∃ ev', signup_event [mkEvent (some 1) none (some "x")] 1 "" =
        (Except.ok "Signed up ", replaceEvent [mkEvent (some 1) none (some "x")] 1 ev') ∧
      getEvent (replaceEvent [mkEvent (some 1) none (some "x")] 1 ev') 1 = some ev' ∧
      "" ∉ _parse_attendees ev'.attendees ∧
      _parse_attendees ev'.attendees =
        _parse_attendees (mkEvent (some 1) none (some "x")).attendees ∧
      (signup_event (replaceEvent [mkEvent (some 1) none (some "x")] 1 ev') 1 "").1 =
        Except.ok "Signed up " :=
  signup_event_empty_email [mkEvent (some 1) none (some "x")] 1
    (mkEvent (some 1) none (some "x")) rfl (by decide)

/-- C2 counterexample: an event created with attendees empty on which three
signups all succeed, the first being the empty-string email: the decoded
list afterwards is `["x", "y"]`, not the three signed-up emails
`["", "x", "y"]` (decoding discards empty segments). -/
theorem signup_roundtrip_counterexample :
    signup_event [mkEvent (some 1) none none] 1 "" =
      (Except.ok "Signed up ", [mkEvent (some 1) none (some "")]) ∧
    signup_event [mkEvent (some 1) none (some "")] 1 "x" =
      (Except.ok "Signed up x", [mkEvent (some 1) none (some "x")]) ∧
    signup_event [mkEvent (some 1) none (some "x")] 1 "y" =
      (Except.ok "Signed up y", [mkEvent (some 1) none (some "x,y")]) ∧
    _parse_attendees (mkEvent (some 1) none (some "x,y")).attendees = ["x", "y"] ∧
    (["x", "y"] : List String) ≠ ["", "x", "y"] :=
  ⟨rfl, rfl, rfl, by decide, by decide⟩

/-- C2 (amended): starting from an event whose decoded attendee list is
empty, signing up three nonempty comma-free emails, each signup succeeding,
makes the decoded attendee list exactly those three emails in signup order.
(The amendment restricts the emails to be nonempty and comma-free: the
empty email is silently dropped by decoding and a comma-containing email is
split apart, as the counterexample shows.) -/
theorem signup_roundtrip_three (db : List Event) (event_id : Int) (e1 e2 e3 : String)
    (ev : Event) (hget : getEvent db event_id = some ev)
    (hempty : _parse_attendees ev.attendees = [])
    (hne1 : e1 ≠ "") (hne2 : e2 ≠ "") (hne3 : e3 ≠ "")
    (hc1 : ',' ∉ e1.toList) (hc2 : ',' ∉ e2.toList) (hc3 : ',' ∉ e3.toList)
    (m1 m2 m3 : String) (db1 db2 db3 : List Event)
    (hs1 : signup_event db event_id e1 = (Except.ok m1, db1))
    (hs2 : signup_event db1 event_id e2 = (Except.ok m2, db2))
    (hs3 : signup_event db2 event_id e3 = (Except.ok m3, db3))
    (ev3 : Event) (hget3 : getEvent db3 event_id = some ev3) :
    _parse_attendees ev3.attendees = [e1, e2, e3] := by
  have hid : ev.id = some event_id := (getEvent_mem db event_id ev hget).2
  obtain ⟨hm1, hcap1, hmsg1, hdb1⟩ := signup_event_ok db event_id e1 ev hget m1 db1 hs1
  have hget1 : getEvent db1 event_id =
      some { ev with attendees := some (_join_attendees (_parse_attendees ev.attendees ++ [e1])) } := by
    rw [hdb1]
    exact getEvent_replaceEvent db event_id ev _ hid hget
  have hp1 : _parse_attendees
      ({ ev with attendees := some (_join_attendees (_parse_attendees ev.attendees ++ [e1])) } : Event).attendees =
      [e1] := by
    show _parse_attendees (some (_join_attendees (_parse_attendees ev.attendees ++ [e1]))) = [e1]
    rw [parse_after_signup ev.attendees e1 hc1, hempty]
    simp [hne1]
  obtain ⟨hm2, hcap2, hmsg2, hdb2⟩ := signup_event_ok db1 event_id e2 _ hget1 m2 db2 hs2
  rw [hp1] at hdb2
  have hget2 : getEvent db2 event_id =
      some { ev with attendees := some (_join_attendees ([e1] ++ [e2])) } := by
    rw [hdb2]
    exact getEvent_replaceEvent db1 event_id _ _ hid hget1
  have hp2 : _parse_attendees
      ({ ev with attendees := some (_join_attendees ([e1] ++ [e2])) } : Event).attendees =
      [e1, e2] := by
    show _parse_attendees (some (_join_attendees ([e1] ++ [e2]))) = [e1, e2]
    have h1 : ([e1] : List String) = _parse_attendees
        ({ ev with attendees := some (_join_attendees (_parse_attendees ev.attendees ++ [e1])) } : Event).attendees :=
      hp1.symm
    rw [h1, parse_after_signup _ e2 hc2, hp1]
    simp [hne2]
  obtain ⟨hm3, hcap3, hmsg3, hdb3⟩ := signup_event_ok db2 event_id e3 _ hget2 m3 db3 hs3
  rw [hp2] at hdb3
  have hget3' : getEvent db3 event_id =
      some { ev with attendees := some (_join_attendees ([e1, e2] ++ [e3])) } := by
    rw [hdb3]
    exact getEvent_replaceEvent db2 event_id _ _ hid hget2
  have hev3 : ev3 = { ev with attendees := some (_join_attendees ([e1, e2] ++ [e3])) } :=
    Option.some_injective _ (hget3.symm.trans hget3')
  rw [hev3]
  show _parse_attendees (some (_join_attendees ([e1, e2] ++ [e3]))) = [e1, e2, e3]
  have h2 : ([e1, e2] : List String) = _parse_attendees
      ({ ev with attendees := some (_join_attendees ([e1] ++ [e2])) } : Event).attendees :=
    hp2.symm
  rw [h2, parse_after_signup _ e3 hc3, hp2]
  simp [hne3]

/-- C2 witness: three concrete signups "a", "b", "c" on an empty event
decode back to exactly those three in order. -/
theorem signup_roundtrip_three_witness :
    _parse_attendees (mkEvent (some 1) none (some "a,b,c")).attendees = ["a", "b", "c"] :=
  signup_roundtrip_three [mkEvent (some 1) none none] 1 "a" "b" "c"
    (mkEvent (some 1) none none) rfl rfl
    (by decide) (by decide) (by decide) (by decide) (by decide) (by decide)
    "Signed up a" "Signed up b" "Signed up c"
    [mkEvent (some 1) none (some "a")] [mkEvent (some 1) none (some "a,b")]
    [mkEvent (some 1) none (some "a,b,c")]
    rfl rfl rfl (mkEvent (some 1) none (some "a,b,c")) rfl

/-- Each activity's participant list contains no duplicate emails. -/
abbrev activitiesNodup (acts : List (String × Activity)) : Prop :=
  ∀ p ∈ acts, p.2.participants.Nodup

/-- Each event's decoded attendee list contains no duplicate emails. -/
abbrev eventsNodup (db : List Event) : Prop :=
  ∀ e ∈ db, (_parse_attendees e.attendees).Nodup

/-- C9 counterexample: from a duplicate-free state, event signup with the
comma-containing email "x,x" succeeds (the membership check compares the
whole string) and leaves a decoded attendee list `["x", "x"]` with a
duplicate, so the operations do not preserve the uniqueness invariant for
arbitrary emails. -/
theorem nodup_invariant_counterexample :
    eventsNodup [mkEvent (some 1) none none] ∧
    (signup_event [mkEvent (some 1) none none] 1 "x,x").1 = Except.ok "Signed up x,x" ∧
    ¬ eventsNodup (signup_event [mkEvent (some 1) none none] 1 "x,x").2 :=
  ⟨by decide, rfl, by decide⟩

/-- C9 (amended): for comma-free emails, every operation — activity
signup/unregister and event signup/unregister/checkin — preserves the
invariant that participant lists and decoded attendee lists are
duplicate-free, because each signup path checks membership before
appending.  (The amendment restricts the email to contain no comma: the
counterexample shows a comma-containing email splits into duplicate decoded
attendees.) -/
theorem nodup_invariant_preserved (acts : List (String × Activity)) (db : List Event)
    (name email : String) (event_id : Int) (hcomma : ',' ∉ email.toList)
    (ha : activitiesNodup acts) (he : eventsNodup db) :
    activitiesNodup (signup_for_activity acts name email).2 ∧
    activitiesNodup (unregister_from_activity acts name email).2 ∧
    eventsNodup (signup_event db event_id email).2 ∧
    eventsNodup (unregister_event db event_id email).2 ∧
    eventsNodup (checkin_event db event_id email).2 := by
  refine ⟨?_, ?_, ?_, ?_, ?_⟩
  · rcases hl : lookupActivity acts name with _ | a
    · unfold signup_for_activity
      rw [hl]
      exact ha
    · unfold signup_for_activity
      rw [hl]
      by_cases hm : email ∈ a.participants
      · simp only [if_pos hm]
        exact ha
      · simp only [if_neg hm]
        intro p hp
        rcases mem_setActivity acts name _ p hp with ⟨q, hq, hpq⟩ | hp'
        · subst hpq
          show (a.participants ++ [email]).Nodup
          have hna : a.participants.Nodup := by
            obtain ⟨p0, hp0, _, hp02⟩ := lookupActivity_mem acts name a hl
            have h0 := ha p0 hp0
            rwa [hp02] at h0
          exact nodup_append_one _ _ hna hm
        · exact ha p hp'
  · rcases hl : lookupActivity acts name with _ | a
    · unfold unregister_from_activity
      rw [hl]
      exact ha
    · unfold unregister_from_activity
      rw [hl]
      by_cases hm : email ∈ a.participants
      · simp only [hm, not_true_eq_false, if_false]
        intro p hp
        rcases mem_setActivity acts name _ p hp with ⟨q, hq, hpq⟩ | hp'
        · subst hpq
          show (a.participants.erase email).Nodup
          have hna : a.participants.Nodup := by
            obtain ⟨p0, hp0, _, hp02⟩ := lookupActivity_mem acts name a hl
            have h0 := ha p0 hp0
            rwa [hp02] at h0
          exact hna.erase email
        · exact ha p hp'
      · simp only [hm, not_false_eq_true, if_true]
        exact ha
  · rcases hg : getEvent db event_id with _ | ev
    · unfold signup_event
      rw [hg]
      exact he
    · unfold signup_event
      rw [hg]
      by_cases hm : email ∈ _parse_attendees ev.attendees
      · simp only [if_pos hm]
        exact he
      · rcases hcap : capacityFull ev.capacity (_parse_attendees ev.attendees).length
        · simp only [if_neg hm, hcap, Bool.false_eq_true, if_false]
          intro e hee
          rcases mem_replaceEvent db event_id _ e hee with rfl | hein
          · show (_parse_attendees
              (some (_join_attendees (_parse_attendees ev.attendees ++ [email])))).Nodup
            rw [parse_after_signup ev.attendees email hcomma]
            have hnev : (_parse_attendees ev.attendees).Nodup :=
              he ev (getEvent_mem db event_id ev hg).1
            by_cases hemp : email = ""
            · simp [hemp, hnev]
            · simp only [if_neg hemp]
              exact nodup_append_one _ _ hnev hm
          · exact he e hein
        · simp only [if_neg hm, hcap, if_true]
          exact he
  · rcases hg : getEvent db event_id with _ | ev
    · unfold unregister_event
      rw [hg]
      exact he
    · unfold unregister_event
      rw [hg]
      by_cases hm : email ∈ _parse_attendees ev.attendees
      · simp only [hm, not_true_eq_false, if_false]
        intro e hee
        rcases mem_replaceEvent db event_id _ e hee with rfl | hein
        · show (_parse_attendees
            (some (_join_attendees ((_parse_attendees ev.attendees).erase email)))).Nodup
          rw [parse_after_unregister]
          exact (he ev (getEvent_mem db event_id ev hg).1).erase email
        · exact he e hein
      · simp only [hm, not_false_eq_true, if_true]
        exact he
  · rw [checkin_event_snd db event_id email]
    exact he

/-- C9 witness: all five operations at concrete duplicate-free states with a
comma-free email keep the lists duplicate-free. -/
theorem nodup_invariant_preserved_witness :
    activitiesNodup (signup_for_activity activities "Chess Club" "z@mergington.edu").2 ∧
    activitiesNodup (unregister_from_activity activities "Chess Club" "z@mergington.edu").2 ∧
    eventsNodup (signup_event [mkEvent (some 1) none (some "x")] 1 "z@mergington.edu").2 ∧
    eventsNodup (unregister_event [mkEvent (some 1) none (some "x")] 1 "z@mergington.edu").2 ∧
    eventsNodup (checkin_event [mkEvent (some 1) none (some "x")] 1 "z@mergington.edu").2 :=
  nodup_invariant_preserved activities [mkEvent (some 1) none (some "x")]
    "Chess Club" "z@mergington.edu" 1 (by decide) (by decide) (by decide)

end Mergington

